import Mathlib

/-!
Verification development for the PunkSchool course platform.

The repository ships the React frontend (`frontend/src`); the FastAPI
backend that implements the Enrollment Manager, Progress Tracker, Quiz
Grader and Certificate Issuer is not part of the checked-in sources (only
its README and the frontend API callers are).  Backend operations are
therefore modelled from the specification, while the frontend logic
(`CourseLearning.jsx`) is embedded directly from the source.
-/

namespace PunkSchool

/-- Error kinds of the core, from spec section 7. -/
inductive EMError where
  | AlreadyEnrolled
  | NotEnrolled
  | LessonNotInCourse
  | QuizNotPassed
  | ModuleIncomplete
  | CourseIncomplete
  | CourseNotCompleted
  | IncompleteAnswers
deriving DecidableEq

/-- A quiz question: text, options, index of the correct option, points. -/
structure Question where
  id : Nat
  question_text : String
  options : List String
  correct_option_index : Nat
  points : Nat
deriving DecidableEq

/-- A quiz: ordered questions and a passing score threshold. -/
structure Quiz where
  id : Nat
  title : String
  questions : List Question
  passing_score : Nat
deriving DecidableEq

/-- Lesson content is a variant over video, text and quiz; a quiz is owned
by exactly one quiz-type lesson, so it is stored inside the lesson. -/
inductive LessonContent where
  | video (url : Option String)
  | textC (content : String)
  | quizC (qz : Quiz)
deriving DecidableEq

/-- A lesson: identifier, content variant, and a duration in minutes. -/
structure Lesson where
  id : Nat
  content : LessonContent
  duration_minutes : Nat
deriving DecidableEq

/-- A module: identifier and its ordered lessons. -/
structure Module where
  id : Nat
  lessons : List Lesson
deriving DecidableEq

/-- A course: identifier, title and ordered modules. -/
structure Course where
  id : Nat
  title : String
  modules : List Module
deriving DecidableEq

/-- One graded submission of answers to a quiz. -/
structure QuizAttempt where
  quizId : Nat
  answers : List (Nat × Nat)
  score : Nat
  total_score : Nat
  passed : Bool
deriving DecidableEq

/-- The enrollment record: completed-lesson set, explicit module-completed
set, completion flag and derived progress percentage. -/
structure Enrollment where
  id : Nat
  studentId : Nat
  courseId : Nat
  completed_lessons : List Nat
  module_completed : List Nat
  is_completed : Bool
  progress_percent : Nat
deriving DecidableEq

/-- An issued certificate, snapshotting student/course facts at issuance. -/
structure Certificate where
  id : Nat
  enrollmentId : Nat
  student_name : String
  course_title : String
  total_hours : Nat
  issued_at : Nat
deriving DecidableEq

/-- The per-enrollment aggregate the Enrollment Manager mutates: the
enrollment record, the retained quiz attempts (most recent first) and the
issued certificates. -/
structure EMState where
  enrollment : Enrollment
  attempts : List QuizAttempt
  certificates : List Certificate
deriving DecidableEq

/-- The lesson identifiers of a module. -/
def Module.lessonIds (m : Module) : List Nat := m.lessons.map (fun l => l.id)

/-- All lessons of a course, across its modules. -/
def allLessons (c : Course) : List Lesson := c.modules.flatMap (fun m => m.lessons)

/-- Total number of lessons in a course. -/
def totalLessons (c : Course) : Nat := (allLessons c).length

/-- Look a lesson up by identifier inside the course. -/
def findLesson (c : Course) (lid : Nat) : Option Lesson :=
  (allLessons c).find? (fun l => l.id == lid)

/-- The module of the course owning a given lesson identifier. -/
def owningModule (c : Course) (lid : Nat) : Option Module :=
  c.modules.find? (fun m => m.lessonIds.contains lid)

/-- Structural sanity of the content-management input: each lesson belongs
to exactly one module (lesson ids are globally distinct) and module ids
are distinct, as stated in the spec data model. -/
def WellFormed (c : Course) : Prop :=
  (c.modules.flatMap Module.lessonIds).Nodup ∧ (c.modules.map (fun m => m.id)).Nodup

instance (c : Course) : Decidable (WellFormed c) := by
  unfold WellFormed; infer_instance

/-- Integer rounding of `num / den * 100` to the nearest integer,
half rounded up, exactly as JavaScript `Math.round` behaves on
non-negative arguments. -/
def jsRound100 (num den : Nat) : Nat := (200 * num + den) / (2 * den)

/-- Modelled from the spec: the Progress Tracker's derived percentage —
`|completed_lessons| / total_lessons_in_course * 100` rounded to nearest,
and `0` for a course with zero lessons. -/
def progressOf (c : Course) (completed : List Nat) : Nat :=
  if totalLessons c = 0 then 0 else jsRound100 completed.length (totalLessons c)

/-- Recompute the derived `progress_percent` of an enrollment. -/
def recompute (c : Course) (e : Enrollment) : Enrollment :=
  { e with progress_percent := progressOf c e.completed_lessons }

/-- The most recent quiz attempt for a quiz (attempts are kept most recent
first). -/
def latestAttempt (s : EMState) (qzId : Nat) : Option QuizAttempt :=
  s.attempts.find? (fun a => a.quizId == qzId)

/-- Whether the most recent attempt for a quiz is passing; `false` when no
attempt exists. -/
def latestPassed (s : EMState) (qzId : Nat) : Bool :=
  ((latestAttempt s qzId).map (fun a => a.passed)).getD false

/-- Insert a lesson into the completed set and recompute progress. -/
def addCompleted (c : Course) (s : EMState) (lid : Nat) : EMState :=
  { s with enrollment :=
      recompute c { s.enrollment with
        completed_lessons := s.enrollment.completed_lessons.insert lid } }

/-- Modelled from the spec: `CompleteLesson(enrollmentId, lessonId)` of the
Enrollment Manager (the backend endpoint behind
`studentsAPI.completeLesson`).  Fails `LessonNotInCourse` when the lesson
is not in the enrollment's course; for a quiz-type lesson fails
`QuizNotPassed` unless the latest QuizAttempt for its quiz is passing;
otherwise adds the lesson to the completed set (a no-op when already
present) and recomputes progress. -/
def completeLesson (c : Course) (s : EMState) (lid : Nat) : Except EMError EMState :=
  match findLesson c lid with
  | none => .error .LessonNotInCourse
  | some l =>
    match l.content with
    | .quizC qz =>
        if latestPassed s qz.id then .ok (addCompleted c s lid)
        else .error .QuizNotPassed
    | _ => .ok (addCompleted c s lid)

/-- The quiz gate of `completeLesson`: trivially true for non-quiz lessons,
the latest-attempt-passing test for quiz lessons. -/
def quizGate (c : Course) (s : EMState) (lid : Nat) : Bool :=
  match findLesson c lid with
  | some l =>
    match l.content with
    | .quizC qz => latestPassed s qz.id
    | _ => true
  | none => true

/-- Modelled from the spec: `ResetLesson(enrollmentId, lessonId)` (the
backend endpoint behind `studentsAPI.resetLesson`).  Removes the lesson
from the completed set (no-op success when absent), clears
`module_completed` for the owning module, clears `is_completed`, and
recomputes progress; certificates are untouched. -/
def resetLesson (c : Course) (s : EMState) (lid : Nat) : EMState :=
  let completed := s.enrollment.completed_lessons.filter (fun x => x != lid)
  let flags :=
    match owningModule c lid with
    | some m => s.enrollment.module_completed.filter (fun x => x != m.id)
    | none => s.enrollment.module_completed
  { s with enrollment :=
      recompute c { s.enrollment with
        completed_lessons := completed,
        module_completed := flags,
        is_completed := false } }

/-- Modelled from the spec: `CompleteModule(enrollmentId, moduleId)` (the
backend endpoint behind `studentsAPI.completeModule`).  Fails
`ModuleIncomplete` unless every lesson of the module is completed;
otherwise records the module in `module_completed`. -/
def completeModule (c : Course) (s : EMState) (mid : Nat) : Except EMError EMState :=
  match c.modules.find? (fun m => m.id == mid) with
  | none => .error .ModuleIncomplete
  | some m =>
    if ∀ x ∈ m.lessonIds, x ∈ s.enrollment.completed_lessons then
      .ok { s with
            enrollment := recompute c { s.enrollment with
              module_completed := s.enrollment.module_completed.insert mid } }
    else .error .ModuleIncomplete

/-- Modelled from the spec: `CompleteCourse(enrollmentId)` (the backend
endpoint behind `studentsAPI.completeCourse`).  Fails `CourseIncomplete`
unless every module of the course is in `module_completed`; otherwise sets
`is_completed`. -/
def completeCourse (c : Course) (s : EMState) : Except EMError EMState :=
  if ∀ m ∈ c.modules, m.id ∈ s.enrollment.module_completed then
    .ok { s with
          enrollment := recompute c { s.enrollment with is_completed := true } }
  else .error .CourseIncomplete

/-- Modelled from the spec: the Quiz Grader's scoring of one submission.
Fails `IncompleteAnswers` when some question lacks an entry; otherwise a
question is correct iff the submitted index equals its correct option
index, `score` sums the points of correct questions, `total_score` sums
all points, and `passed = score >= passing_score`. -/
def gradeQuiz (qz : Quiz) (ans : List (Nat × Nat)) : Except EMError QuizAttempt :=
  if qz.questions.any (fun q => (ans.lookup q.id).isNone) then
    .error .IncompleteAnswers
  else
    let correct := qz.questions.filter (fun q => ans.lookup q.id == some q.correct_option_index)
    let score := (correct.map (fun q => q.points)).sum
    .ok { quizId := qz.id,
          answers := ans,
          score := score,
          total_score := (qz.questions.map (fun q => q.points)).sum,
          passed := decide (qz.passing_score ≤ score) }

/-- Modelled from the spec: `SubmitQuiz` stores the freshly graded attempt,
retaining prior attempts (most recent first). -/
def submitQuizOp (s : EMState) (qz : Quiz) (ans : List (Nat × Nat)) :
    Except EMError (QuizAttempt × EMState) :=
  match gradeQuiz qz ans with
  | .error e => .error e
  | .ok a => .ok (a, { s with attempts := a :: s.attempts })

/-- Total hours snapshot for a certificate: summed lesson minutes over 60. -/
def certTotalHours (c : Course) : Nat :=
  ((allLessons c).map (fun l => l.duration_minutes)).sum / 60

/-- The snapshot certificate produced at issuance time. -/
def freshCertificate (c : Course) (studentName : String) (e : Enrollment)
    (now : Nat) : Certificate :=
  { id := now,
    enrollmentId := e.id,
    student_name := studentName,
    course_title := c.title,
    total_hours := certTotalHours c,
    issued_at := now }

/-- Modelled from the spec: `GenerateCertificate(enrollmentId)` (the backend
endpoint behind `studentsAPI.generateCertificate`).  Fails
`CourseNotCompleted` unless the enrollment is completed; returns an already
issued certificate unchanged; otherwise snapshots and stores a new one. -/
def generateCertificate (c : Course) (studentName : String) (s : EMState)
    (now : Nat) : Except EMError (Certificate × EMState) :=
  if s.enrollment.is_completed then
    match s.certificates.find? (fun ct => ct.enrollmentId == s.enrollment.id) with
    | some ct => .ok (ct, s)
    | none =>
        .ok (freshCertificate c studentName s.enrollment now,
             { s with certificates := freshCertificate c studentName s.enrollment now :: s.certificates })
  else .error .CourseNotCompleted

/-- Modelled from the spec: `Enroll` creates an enrollment with an empty
completed set (progress derived by the Progress Tracker). -/
def initState (eid sid : Nat) (c : Course) : EMState :=
  { enrollment :=
      { id := eid,
        studentId := sid,
        courseId := c.id,
        completed_lessons := [],
        module_completed := [],
        is_completed := false,
        progress_percent := progressOf c [] },
    attempts := [],
    certificates := [] }

/-- The enrollment states reachable through the Enrollment Manager
operations, starting from `Enroll`. -/
inductive Reaches (c : Course) : EMState → Prop where
  | enroll (eid sid : Nat) : Reaches c (initState eid sid c)
  | completeLessonStep {s s' : EMState} {lid : Nat} :
      Reaches c s → completeLesson c s lid = .ok s' → Reaches c s'
  | resetLessonStep {s : EMState} {lid : Nat} :
      Reaches c s → Reaches c (resetLesson c s lid)
  | completeModuleStep {s s' : EMState} {mid : Nat} :
      Reaches c s → completeModule c s mid = .ok s' → Reaches c s'
  | completeCourseStep {s s' : EMState} :
      Reaches c s → completeCourse c s = .ok s' → Reaches c s'
  | submitQuizStep {s s' : EMState} {a : QuizAttempt} {qz : Quiz} {ans : List (Nat × Nat)} :
      Reaches c s → submitQuizOp s qz ans = .ok (a, s') → Reaches c s'
  | generateCertificateStep {s s' : EMState} {ct : Certificate} {name : String} {now : Nat} :
      Reaches c s → generateCertificate c name s now = .ok (ct, s') → Reaches c s'

/-! ## Frontend logic embedded from `frontend/src/pages/CourseLearning.jsx` -/

/-- `isLessonCompleted` (CourseLearning.jsx:64-66): membership of the lesson
id in the enrollment's `completed_lessons`. -/
def isLessonCompleted (e : Enrollment) (lid : Nat) : Bool :=
  e.completed_lessons.contains lid

/-- `isModuleCompleted` (CourseLearning.jsx:68-71): false for a module with
no lessons, otherwise every lesson completed. -/
def isModuleCompleted (e : Enrollment) (m : Module) : Bool :=
  if m.lessons.isEmpty then false
  else m.lessons.all (fun l => isLessonCompleted e l.id)

/-- `isCourseCompleted` (CourseLearning.jsx:73-76): every module of the
course is module-completed. -/
def isCourseCompleted (e : Enrollment) (c : Course) : Bool :=
  c.modules.all (fun m => isModuleCompleted e m)

/-- Whether a lesson is quiz-type (`lesson.lesson_type === 'quiz'`). -/
def lessonTypeIsQuiz (l : Lesson) : Bool :=
  match l.content with
  | .quizC _ => true
  | _ => false

/-- Whether an optional quiz result records a passing attempt
(`!!quizResult?.passed`). -/
def optResultPassed (r : Option QuizAttempt) : Bool :=
  (r.map (fun a => a.passed)).getD false

/-- `quizPassed` in the lesson-modal footer (CourseLearning.jsx:498):
`requiresQuizPass ? !!quizResult?.passed : true`. -/
def quizPassedFlag (l : Lesson) (r : Option QuizAttempt) : Bool :=
  if lessonTypeIsQuiz l then optResultPassed r else true

/-- `completeDisabled` in the lesson-modal footer (CourseLearning.jsx:500-502):
the complete button is disabled while the completion request for this
lesson is in flight, or when a quiz-type lesson has no passing result. -/
def completeDisabled (completingLessonId : Option Nat) (l : Lesson)
    (r : Option QuizAttempt) : Bool :=
  (completingLessonId == some l.id) || (lessonTypeIsQuiz l && !(quizPassedFlag l r))

/-- The lesson modal's quiz-related React state:
`quizAnswers`, `quizSubmitted`, `quizResult` (CourseLearning.jsx:25-27).
The answer map is an association list keyed by question id, most recent
assignment first, matching the object-spread update. -/
structure ModalState where
  quizAnswers : List (Nat × Nat)
  quizSubmitted : Bool
  quizResult : Option QuizAttempt
deriving DecidableEq

/-- The object-spread update `{...prev, [questionId]: optionIndex}`:
later assignments shadow earlier ones. -/
def setAnswer (qid oid : Nat) (m : List (Nat × Nat)) : List (Nat × Nat) :=
  (qid, oid) :: m.filter (fun p => p.1 != qid)

/-- `handleQuizAnswerChange` (CourseLearning.jsx:158-164): ignores the
change once the quiz has been submitted, otherwise records the selection. -/
def handleQuizAnswerChange (st : ModalState) (qid oid : Nat) : ModalState :=
  if st.quizSubmitted then st
  else { st with quizAnswers := setAnswer qid oid st.quizAnswers }

/-- The `allQuestionsAnswered` check of `handleSubmitQuiz`
(CourseLearning.jsx:170-172): every question of the loaded quiz has a
selected answer that is neither `undefined` nor `null`. -/
def allQuestionsAnswered (qz : Quiz) (answers : List (Nat × Nat)) : Bool :=
  qz.questions.all (fun q => (answers.lookup q.id).isSome)

/-- `handleSubmitQuiz` (CourseLearning.jsx:166-196): refuses to send the
request when some question is unanswered; on a successful request stores
the grading result and freezes the answers. -/
def handleSubmitQuiz (st : ModalState) (qz : Quiz) : ModalState :=
  if allQuestionsAnswered qz st.quizAnswers then
    match gradeQuiz qz st.quizAnswers with
    | .ok a => { st with quizResult := some a, quizSubmitted := true }
    | .error _ => st
  else st

/-- `handleRetakeQuiz` (CourseLearning.jsx:198-202): empties the answer map
and clears the submitted flag and result. -/
def handleRetakeQuiz (_st : ModalState) : ModalState :=
  { quizAnswers := [], quizSubmitted := false, quizResult := none }

/-- `handleResetLesson` (CourseLearning.jsx:204-218), modal part: on a
successful reset request the quiz state is cleared; on failure the state
is left as it was. -/
def handleResetLessonModal (ok : Bool) (st : ModalState) : ModalState :=
  if ok then { quizAnswers := [], quizSubmitted := false, quizResult := none }
  else st

/-- The events that can hit the lesson modal's quiz state. -/
inductive MEvent where
  | answer (qid oid : Nat)
  | submit (qz : Quiz)
  | retake
  | reset (ok : Bool)
deriving DecidableEq

/-- One step of the lesson modal's quiz state machine. -/
def modalStep (e : MEvent) (st : ModalState) : ModalState :=
  match e with
  | .answer qid oid => handleQuizAnswerChange st qid oid
  | .submit qz => handleSubmitQuiz st qz
  | .retake => handleRetakeQuiz st
  | .reset ok => handleResetLessonModal ok st

/-! ## `extractYouTubeId` embedded from CourseLearning.jsx:551-556

The JavaScript function matches
`/^.*(youtu.be\/|v\/|u\/\w\/|embed\/|watch\?v=|&v=)([^#&?]*).*/` and
returns the second capture group when it is exactly 11 characters long,
the empty string otherwise (also for every falsy input).  The leading
greedy `.*` makes the engine commit to the last position at which one of
the delimiter alternatives matches; the second group then greedily takes
the following characters outside `#&?`. -/

/-- A single-character pattern of the YouTube-id regular expression:
a literal, the dot wildcard, or the `\w` word class. -/
inductive CPat where
  | lit (ch : Char)
  | anyc
  | word
deriving DecidableEq

/-- Whether a character matches a single-character pattern. -/
def charMatches (p : CPat) (ch : Char) : Bool :=
  match p with
  | .lit c2 => ch == c2
  | .anyc => true
  | .word => ch.isAlphanum || ch == '_'

/-- Match a sequence of character patterns against a prefix of the input,
returning the remaining characters on success. -/
def matchPats : List CPat → List Char → Option (List Char)
  | [], rest => some rest
  | _ :: _, [] => none
  | p :: ps, ch :: rest => if charMatches p ch then matchPats ps rest else none

/-- Literal character patterns for a string. -/
def litPats (s : String) : List CPat := s.toList.map .lit

/-- The delimiter alternatives of the regular expression, in source order:
`youtu.be/`, `v/`, `u/\w/`, `embed/`, `watch?v=`, `&v=` (the dot in
`youtu.be` is the unescaped wildcard). -/
def ytAlternatives : List (List CPat) :=
  [litPats "youtu" ++ [.anyc] ++ litPats "be/",
   litPats "v/",
   [.lit 'u', .lit '/', .word, .lit '/'],
   litPats "embed/",
   litPats "watch?v=",
   litPats "&v="]

/-- Try the delimiter alternatives in order at the current position. -/
def tryAltsAux : List (List CPat) → List Char → Option (List Char)
  | [], _ => none
  | alt :: alts, cs =>
    match matchPats alt cs with
    | some rest => some rest
    | none => tryAltsAux alts cs

/-- Try the YouTube delimiter alternatives at the current position. -/
def tryAlts (cs : List Char) : Option (List Char) := tryAltsAux ytAlternatives cs

/-- Backtracking of the leading greedy `.*`: prefer the latest position at
which a delimiter alternative matches. -/
def scanLast : List Char → Option (List Char)
  | [] => none
  | ch :: rest =>
    match scanLast rest with
    | some r => some r
    | none => tryAlts (ch :: rest)

/-- The second capture group `[^#&?]*`: the maximal run of characters
outside `#`, `&`, `?` after the delimiter. -/
def group2 (rest : List Char) : List Char :=
  rest.takeWhile (fun ch => !(ch == '#' || ch == '&' || ch == '?'))

/-- `extractYouTubeId` (CourseLearning.jsx:551-556).  `none` models the
JavaScript `null`/`undefined` argument; `if (!url)` also catches the empty
string.  Total by construction. -/
def extractYouTubeId (url : Option String) : String :=
  match url with
  | none => ""
  | some u =>
    if u = "" then ""
    else
      match scanLast u.toList with
      | none => ""
      | some rest =>
        let g2 := String.mk (group2 rest)
        if g2.length = 11 then g2 else ""

/-! ## Spec-side statements and invariant -/

/-- The Progress Tracker requirement in the spec's own words: for a course
with zero lessons the percentage is `0`; otherwise it is the completed
count divided by the total lesson count, times 100, rounded to the nearest
integer (Mathlib `round` on `ℚ` rounds half up, as JavaScript `Math.round`
does on non-negative numbers). -/
def ProgressCorrect (c : Course) (e : Enrollment) : Prop :=
  (totalLessons c = 0 → e.progress_percent = 0) ∧
  (0 < totalLessons c →
    (e.progress_percent : ℤ) =
      round ((e.completed_lessons.length : ℚ) * 100 / (totalLessons c : ℚ)))

/-- The inductive invariant of the enrollment aggregate: the completion
hierarchy is consistent, the derived percentage matches the Progress
Tracker formula, and completed lessons belong to the course. -/
structure StateInv (c : Course) (s : EMState) : Prop where
  modulesDone : s.enrollment.is_completed = true →
    ∀ m ∈ c.modules, m.id ∈ s.enrollment.module_completed
  lessonsDone : ∀ m ∈ c.modules, m.id ∈ s.enrollment.module_completed →
    ∀ l ∈ m.lessons, l.id ∈ s.enrollment.completed_lessons
  progressOk : s.enrollment.progress_percent = progressOf c s.enrollment.completed_lessons
  completedInCourse : ∀ x ∈ s.enrollment.completed_lessons, ∃ l ∈ allLessons c, l.id = x

/-! ## Concrete fixtures used by witnesses -/

/-- A one-question quiz gating the example quiz lesson. -/
def gateQuiz : Quiz :=
  { id := 10, title := "gate",
    questions := [{ id := 1, question_text := "q", options := ["a", "b"],
                    correct_option_index := 0, points := 1 }],
    passing_score := 1 }

/-- Example quiz-type lesson. -/
def exLessonQ : Lesson := { id := 1, content := .quizC gateQuiz, duration_minutes := 30 }

/-- Example text lesson. -/
def exLessonT : Lesson := { id := 2, content := .textC "t", duration_minutes := 30 }

/-- Example module holding both lessons. -/
def exModule : Module := { id := 5, lessons := [exLessonQ, exLessonT] }

/-- Example course with one module and two lessons. -/
def exCourse : Course := { id := 100, title := "course", modules := [exModule] }

/-- A passing attempt at the gate quiz. -/
def passAttempt : QuizAttempt :=
  { quizId := 10, answers := [(1, 0)], score := 1, total_score := 1, passed := true }

/-- A failing attempt at the gate quiz. -/
def failAttempt : QuizAttempt :=
  { quizId := 10, answers := [(1, 1)], score := 0, total_score := 1, passed := false }

/-- State after enrolling and passing the gate quiz once. -/
def exS1 : EMState :=
  { enrollment := { id := 0, studentId := 0, courseId := 100, completed_lessons := [],
                    module_completed := [], is_completed := false, progress_percent := 0 },
    attempts := [passAttempt], certificates := [] }

/-- State after additionally completing the quiz lesson. -/
def exS2 : EMState :=
  { enrollment := { id := 0, studentId := 0, courseId := 100, completed_lessons := [1],
                    module_completed := [], is_completed := false, progress_percent := 50 },
    attempts := [passAttempt], certificates := [] }

/-- State after a further failing retake: the quiz lesson is completed but
the most recent attempt for its quiz is failing. -/
def exS3 : EMState :=
  { enrollment := { id := 0, studentId := 0, courseId := 100, completed_lessons := [1],
                    module_completed := [], is_completed := false, progress_percent := 50 },
    attempts := [failAttempt, passAttempt], certificates := [] }

/-- State after completing the text lesson from a fresh enrollment. -/
def exS4 : EMState :=
  { enrollment := { id := 0, studentId := 0, courseId := 100, completed_lessons := [2],
                    module_completed := [], is_completed := false, progress_percent := 50 },
    attempts := [], certificates := [] }

/-- A fully completed example enrollment without a certificate yet. -/
def exSDone : EMState :=
  { enrollment := { id := 0, studentId := 0, courseId := 100, completed_lessons := [1, 2],
                    module_completed := [5], is_completed := true, progress_percent := 100 },
    attempts := [passAttempt], certificates := [] }

/-- The certificate issued for `exSDone` at time 42. -/
def exCert : Certificate :=
  { id := 42, enrollmentId := 0, student_name := "s", course_title := "course",
    total_hours := 1, issued_at := 42 }

/-- `exSDone` after certificate issuance. -/
def exSDone2 : EMState := { exSDone with certificates := [exCert] }

/-- Three-question quiz with points 1, 2, 3 and passing score 3
(spec section 8 example). -/
def pointsQuiz : Quiz :=
  { id := 20, title := "points",
    questions :=
      [{ id := 1, question_text := "q1", options := ["a", "b"],
         correct_option_index := 0, points := 1 },
       { id := 2, question_text := "q2", options := ["a", "b"],
         correct_option_index := 0, points := 2 },
       { id := 3, question_text := "q3", options := ["a", "b"],
         correct_option_index := 0, points := 3 }],
    passing_score := 3 }

/-- Complete answers that are correct only on the 3-point question. -/
def ansOnly3 : List (Nat × Nat) := [(1, 1), (2, 1), (3, 0)]

/-- Complete answers that are correct only on the 1-point question. -/
def ansOnly1 : List (Nat × Nat) := [(1, 0), (2, 1), (3, 1)]

/-- A modal state with a recorded submission, for witnesses. -/
def exModalSt : ModalState :=
  { quizAnswers := [(1, 0)], quizSubmitted := true, quizResult := some passAttempt }

/-! ## Theorems -/

/-- C10: `extractYouTubeId` is total — for every input, including
`null`/`undefined` (`none`), the empty string and non-matching strings, it
returns a string (totality is by construction of the Lean function, which
models the exception-free JavaScript code), and the result is either empty
or exactly 11 characters long. -/
theorem extractYouTubeId_total_shape :
    (∀ url : Option String,
      extractYouTubeId url = "" ∨ (extractYouTubeId url).length = 11) ∧
    extractYouTubeId none = "" ∧
    extractYouTubeId (some "") = "" ∧
    extractYouTubeId (some "not a youtube url") = "" ∧
    extractYouTubeId (some "https://www.youtube.com/watch?v=dQw4w9WgXcQ") = "dQw4w9WgXcQ" := by
  refine ⟨?_, rfl, rfl, rfl, rfl⟩
  intro url
  cases url with
  | none => exact Or.inl rfl
  | some u =>
    have hred : extractYouTubeId (some u) =
        (if u = "" then ""
         else
           match scanLast u.toList with
           | none => ""
           | some rest =>
             let g2 := String.mk (group2 rest)
             if g2.length = 11 then g2 else "") := rfl
    rw [hred]
    by_cases hu : u = ""
    · exact Or.inl (by simp [hu])
    · rw [if_neg hu]
      cases hs : scanLast u.toList with
      | none => exact Or.inl rfl
      | some rest =>
        simp only []
        by_cases hl : (String.mk (group2 rest)).length = 11
        · exact Or.inr (by rw [if_pos hl]; exact hl)
        · exact Or.inl (by rw [if_neg hl])

/-- C9: once `quizSubmitted` is set, `handleQuizAnswerChange` leaves the
whole modal state (in particular the stored answer map) unchanged; and the
only modal events that make the answers mutable again (clear the submitted
flag) are `handleRetakeQuiz` and a successful `handleResetLesson`, both of
which also empty the answer map. -/
theorem modal_answers_frozen_after_submit (st : ModalState) (qid oid : Nat) (e : MEvent)
    (h : st.quizSubmitted = true) :
    handleQuizAnswerChange st qid oid = st ∧
    ((modalStep e st).quizSubmitted = false →
      (e = .retake ∨ e = .reset true) ∧ (modalStep e st).quizAnswers = []) := by
  have hA : ∀ q o, handleQuizAnswerChange st q o = st := by
    intro q o
    unfold handleQuizAnswerChange
    simp [h]
  refine ⟨hA qid oid, ?_⟩
  intro hf
  cases e with
  | answer q o =>
      rw [show modalStep (.answer q o) st = st from hA q o] at hf
      rw [h] at hf
      cases hf
  | submit qz =>
      exfalso
      have hms : modalStep (.submit qz) st = handleSubmitQuiz st qz := rfl
      rw [hms] at hf
      unfold handleSubmitQuiz at hf
      by_cases ha : allQuestionsAnswered qz st.quizAnswers = true
      · rw [if_pos ha] at hf
        cases hg : gradeQuiz qz st.quizAnswers with
        | ok a => rw [hg] at hf; simp at hf
        | error er => rw [hg] at hf; simp [h] at hf
      · rw [if_neg ha] at hf
        rw [h] at hf
        cases hf
  | retake => exact ⟨Or.inl rfl, rfl⟩
  | reset ok =>
      cases ok with
      | true => exact ⟨Or.inr rfl, rfl⟩
      | false =>
          exfalso
          unfold modalStep handleResetLessonModal at hf
          simp [h] at hf

/-- Witness for C9 at a concrete submitted modal state. -/
theorem modal_answers_frozen_after_submit_witness :
    handleQuizAnswerChange exModalSt 1 1 = exModalSt ∧
    ((modalStep .retake exModalSt).quizSubmitted = false →
      (MEvent.retake = .retake ∨ MEvent.retake = .reset true) ∧
      (modalStep .retake exModalSt).quizAnswers = []) :=
  modal_answers_frozen_after_submit exModalSt 1 1 .retake rfl

/-- C8: the Quiz Grader rejects a submission with `IncompleteAnswers`
exactly when some question of the quiz lacks an entry in the answers (so a
complete submission is never rejected with `IncompleteAnswers`), and the
frontend `handleSubmitQuiz` guard refuses to send the request exactly when
some question of the loaded quiz has no selected answer. -/
theorem submitQuiz_incompleteAnswers_iff (qz : Quiz) (ans : List (Nat × Nat)) :
    (gradeQuiz qz ans = .error .IncompleteAnswers ↔
      ∃ q ∈ qz.questions, ans.lookup q.id = none) ∧
    (allQuestionsAnswered qz ans = false ↔
      ∃ q ∈ qz.questions, ans.lookup q.id = none) := by
  have hx : (qz.questions.any fun q => (ans.lookup q.id).isNone) = true ↔
      ∃ q ∈ qz.questions, ans.lookup q.id = none := by
    simp [List.any_eq_true, Option.isNone_iff_eq_none]
  constructor
  · unfold gradeQuiz
    by_cases hc : (qz.questions.any fun q => (ans.lookup q.id).isNone) = true
    · rw [if_pos hc]
      exact iff_of_true rfl (hx.mp hc)
    · rw [if_neg hc]
      exact iff_of_false (by simp) fun hex => hc (hx.mpr hex)
  · rw [← hx]
    unfold allQuestionsAnswered
    constructor
    · intro hfalse
      by_contra hno
      have hno2 : ∀ q ∈ qz.questions, ¬((ans.lookup q.id).isNone = true) := by
        intro q hq hn
        exact hno (List.any_eq_true.mpr ⟨q, hq, hn⟩)
      have hall : (qz.questions.all fun q => (ans.lookup q.id).isSome) = true := by
        rw [List.all_eq_true]
        intro q hq
        have hne := hno2 q hq
        rw [Option.isNone_iff_eq_none] at hne
        exact Option.isSome_iff_ne_none.mpr hne
      rw [hall] at hfalse
      cases hfalse
    · intro hany
      rw [List.any_eq_true] at hany
      obtain ⟨q, hq, hnone⟩ := hany
      rw [← Bool.not_eq_true, List.all_eq_true]
      intro hall
      have hsome := hall q hq
      rw [Option.isNone_iff_eq_none] at hnone
      rw [hnone] at hsome
      cases hsome

/-- Sum of a mapped filter equals the sum of pointwise guarded values. -/
theorem sum_filter_points (l : List Question) (p : Question → Bool) :
    ((l.filter p).map (fun q => q.points)).sum
      = (l.map (fun q => if p q then q.points else 0)).sum := by
  induction l with
  | nil => rfl
  | cons q l ih =>
      by_cases hq : p q <;> simp [List.filter_cons, hq, ih]

/-- C6: the Quiz Grader counts a question correct exactly when the
submitted index equals its correct option index; on a complete submission
it returns the sum of points of the correct questions as `score`, the sum
of all points as `total_score`, and `passed = (score >= passing_score)`. -/
theorem gradeQuiz_scoring (qz : Quiz) (ans : List (Nat × Nat))
    (h : ∀ q ∈ qz.questions, (ans.lookup q.id).isSome) :
    gradeQuiz qz ans = .ok
      { quizId := qz.id,
        answers := ans,
        score := (qz.questions.map (fun q =>
          if ans.lookup q.id == some q.correct_option_index then q.points else 0)).sum,
        total_score := (qz.questions.map (fun q => q.points)).sum,
        passed := decide (qz.passing_score ≤ (qz.questions.map (fun q =>
          if ans.lookup q.id == some q.correct_option_index then q.points else 0)).sum) } := by
  have hc : ¬((qz.questions.any fun q => (ans.lookup q.id).isNone) = true) := by
    intro hany
    rw [List.any_eq_true] at hany
    obtain ⟨q, hq, hn⟩ := hany
    have hsome := h q hq
    rw [Option.isNone_iff_eq_none] at hn
    rw [hn] at hsome
    cases hsome
  unfold gradeQuiz
  rw [if_neg hc]
  show Except.ok
      ({ quizId := qz.id, answers := ans,
         score := ((qz.questions.filter (fun q =>
           ans.lookup q.id == some q.correct_option_index)).map (fun q => q.points)).sum,
         total_score := (qz.questions.map (fun q => q.points)).sum,
         passed := decide (qz.passing_score ≤ ((qz.questions.filter (fun q =>
           ans.lookup q.id == some q.correct_option_index)).map (fun q => q.points)).sum) } :
        QuizAttempt) = _
  rw [sum_filter_points qz.questions (fun q => ans.lookup q.id == some q.correct_option_index)]

/-- Witness for C6: the spec section 8 example — points `[1, 2, 3]`,
passing score 3; correct only on the 3-point question gives
`score = 3, passed = true`; correct only on the 1-point question gives
`score = 1, passed = false`. -/
theorem gradeQuiz_scoring_witness :
    gradeQuiz pointsQuiz ansOnly3 =
      .ok { quizId := 20, answers := ansOnly3, score := 3, total_score := 6, passed := true } ∧
    gradeQuiz pointsQuiz ansOnly1 =
      .ok { quizId := 20, answers := ansOnly1, score := 1, total_score := 6, passed := false } := by
  constructor
  · rw [gradeQuiz_scoring pointsQuiz ansOnly3 (by decide)]
    rfl
  · rw [gradeQuiz_scoring pointsQuiz ansOnly1 (by decide)]
    rfl

/-- The integer computation `(200 n + d) / (2 d)` agrees with rounding the
rational `n * 100 / d` to the nearest integer (half up). -/
theorem jsRound100_eq_round (n d : Nat) (hd : 0 < d) :
    ((jsRound100 n d : Nat) : ℤ) = round ((n : ℚ) * 100 / (d : ℚ)) := by
  have hd0 : (d : ℚ) ≠ 0 := Nat.cast_ne_zero.mpr hd.ne'
  have h2d : (0 : ℚ) < ((2 * d : ℕ) : ℚ) := by
    have h2 : 0 < 2 * d := by omega
    exact_mod_cast h2
  have key : (n : ℚ) * 100 / d + 1 / 2 = ((200 * n + d : ℕ) : ℚ) / ((2 * d : ℕ) : ℚ) := by
    push_cast
    field_simp
    ring
  rw [round_eq, key]
  symm
  rw [Int.floor_eq_iff]
  unfold jsRound100
  constructor
  · rw [le_div_iff₀ h2d]
    have hle : ((200 * n + d) / (2 * d)) * (2 * d) ≤ 200 * n + d := Nat.div_mul_le_self _ _
    push_cast
    exact_mod_cast hle
  · rw [div_lt_iff₀ h2d]
    have hlt : 200 * n + d < (2 * d) * ((200 * n + d) / (2 * d) + 1) :=
      Nat.lt_mul_div_succ _ (by omega)
    have hlt2 : 200 * n + d < ((200 * n + d) / (2 * d) + 1) * (2 * d) := by
      rw [Nat.mul_comm (2 * d) ((200 * n + d) / (2 * d) + 1)] at hlt
      exact hlt
    push_cast
    exact_mod_cast hlt2

/-- An enrollment whose percentage field equals the Progress Tracker
formula satisfies the spec-side progress statement. -/
theorem progressOf_progressCorrect (c : Course) (e : Enrollment)
    (h : e.progress_percent = progressOf c e.completed_lessons) :
    ProgressCorrect c e := by
  unfold ProgressCorrect
  constructor
  · intro h0
    rw [h]
    unfold progressOf
    rw [if_pos h0]
  · intro hpos
    rw [h]
    unfold progressOf
    rw [if_neg hpos.ne']
    exact jsRound100_eq_round e.completed_lessons.length (totalLessons c) hpos

/-- A successful `completeLesson` found the lesson in the course and
produced the recomputed state. -/
theorem completeLesson_ok_shape (c : Course) (s s1 : EMState) (lid : Nat)
    (h : completeLesson c s lid = .ok s1) :
    (∃ l, findLesson c lid = some l) ∧ s1 = addCompleted c s lid := by
  unfold completeLesson at h
  split at h
  · cases h
  · next l heq =>
    refine ⟨⟨l, heq⟩, ?_⟩
    split at h
    · split at h
      · exact (Except.ok.inj h).symm
      · cases h
    · exact (Except.ok.inj h).symm

/-- A successful `completeModule` found the module, its lessons were all
completed, and the state records the module flag and recomputes. -/
theorem completeModule_ok_shape (c : Course) (s s2 : EMState) (mid : Nat)
    (h : completeModule c s mid = .ok s2) :
    ∃ m, c.modules.find? (fun m2 => m2.id == mid) = some m ∧
      (∀ x ∈ m.lessonIds, x ∈ s.enrollment.completed_lessons) ∧
      s2 = { s with
             enrollment := recompute c { s.enrollment with
               module_completed := s.enrollment.module_completed.insert mid } } := by
  unfold completeModule at h
  split at h
  · cases h
  · next m heq =>
    split at h
    · next hall => exact ⟨m, heq, hall, (Except.ok.inj h).symm⟩
    · cases h

/-- A successful `completeCourse` had every module flagged and the result
sets `is_completed` and recomputes. -/
theorem completeCourse_ok_shape (c : Course) (s s3 : EMState)
    (h : completeCourse c s = .ok s3) :
    (∀ m ∈ c.modules, m.id ∈ s.enrollment.module_completed) ∧
    s3 = { s with
           enrollment := recompute c { s.enrollment with is_completed := true } } := by
  unfold completeCourse at h
  split at h
  · next hall => exact ⟨hall, (Except.ok.inj h).symm⟩
  · cases h

/-- C4: after every mutating Enrollment Manager operation the stored
`progress_percent` equals the completed-lesson count over the course's
total lesson count, times 100, rounded to the nearest integer — and it is
0 whenever the course has zero lessons. -/
theorem progress_after_mutations (c : Course) (s s1 s2 s3 : EMState)
    (eid sid lid lid2 mid : Nat) :
    ProgressCorrect c (initState eid sid c).enrollment ∧
    (completeLesson c s lid = .ok s1 → ProgressCorrect c s1.enrollment) ∧
    ProgressCorrect c (resetLesson c s lid2).enrollment ∧
    (completeModule c s mid = .ok s2 → ProgressCorrect c s2.enrollment) ∧
    (completeCourse c s = .ok s3 → ProgressCorrect c s3.enrollment) := by
  refine ⟨progressOf_progressCorrect c _ rfl, ?_, ?_, ?_, ?_⟩
  · intro h
    obtain ⟨-, hshape⟩ := completeLesson_ok_shape c s s1 lid h
    rw [hshape]
    exact progressOf_progressCorrect c _ rfl
  · unfold resetLesson
    exact progressOf_progressCorrect c _ rfl
  · intro h
    obtain ⟨m, -, -, hshape⟩ := completeModule_ok_shape c s s2 mid h
    rw [hshape]
    exact progressOf_progressCorrect c _ rfl
  · intro h
    obtain ⟨-, hshape⟩ := completeCourse_ok_shape c s s3 h
    rw [hshape]
    exact progressOf_progressCorrect c _ rfl

/-- Witness for C4: completing the text lesson of the two-lesson example
course yields 50 percent. -/
theorem progress_after_mutations_witness : ProgressCorrect exCourse exS4.enrollment :=
  (progress_after_mutations exCourse (initState 0 0 exCourse) exS4
    (initState 0 0 exCourse) (initState 0 0 exCourse) 0 0 2 1 5).2.1 (by rfl)

/-- In a well-formed course the lesson identifiers across all modules are
distinct. -/
theorem wf_lesson_ids_nodup (c : Course) (hwf : WellFormed c) :
    ((allLessons c).map (fun l => l.id)).Nodup := by
  unfold allLessons
  rw [List.map_flatMap]
  exact hwf.1

/-- In a well-formed course, two modules sharing a lesson identifier are
the same module. -/
theorem wf_modules_disjoint (c : Course) (hwf : WellFormed c) {m1 m2 : Module}
    (h1 : m1 ∈ c.modules) (h2 : m2 ∈ c.modules) {x : Nat}
    (hx1 : x ∈ m1.lessonIds) (hx2 : x ∈ m2.lessonIds) : m1 = m2 := by
  by_contra hne
  have hp := (List.nodup_flatMap.mp hwf.1).2
  have hsym : Symmetric (Function.onFun List.Disjoint Module.lessonIds) := by
    intro a b hab
    exact List.Disjoint.symm hab
  exact hp.forall hsym h1 h2 hne hx1 hx2

/-- In a well-formed course, module identifiers determine modules. -/
theorem wf_module_id_inj (c : Course) (hwf : WellFormed c) {m1 m2 : Module}
    (h1 : m1 ∈ c.modules) (h2 : m2 ∈ c.modules) (hid : m1.id = m2.id) : m1 = m2 :=
  List.inj_on_of_nodup_map hwf.2 h1 h2 hid

/-- The invariant only depends on the enrollment record. -/
theorem stateInv_enrollment_eq {c : Course} {s s2 : EMState}
    (hinv : StateInv c s) (h : s2.enrollment = s.enrollment) : StateInv c s2 := by
  refine ⟨?_, ?_, ?_, ?_⟩ <;> rw [h]
  exacts [hinv.modulesDone, hinv.lessonsDone, hinv.progressOk, hinv.completedInCourse]

/-- The invariant holds right after enrolling. -/
theorem stateInv_init (c : Course) (eid sid : Nat) : StateInv c (initState eid sid c) := by
  constructor
  · intro h
    simp [initState] at h
  · intro m hm hmem
    simp [initState] at hmem
  · rfl
  · intro x hx
    simp [initState] at hx

/-- The invariant is preserved by adding a lesson of the course to the
completed set. -/
theorem stateInv_addCompleted (c : Course) (s : EMState) (lid : Nat) (l : Lesson)
    (hinv : StateInv c s) (hf : findLesson c lid = some l) :
    StateInv c (addCompleted c s lid) := by
  have hl_mem : l ∈ allLessons c := List.mem_of_find?_eq_some hf
  have hl_id : l.id = lid := by simpa using List.find?_some hf
  constructor
  · intro h m hm
    exact hinv.modulesDone h m hm
  · intro m hm hmem lesson hlesson
    show lesson.id ∈ s.enrollment.completed_lessons.insert lid
    exact List.mem_insert_iff.mpr (Or.inr (hinv.lessonsDone m hm hmem lesson hlesson))
  · rfl
  · intro x hx
    have hx' : x ∈ s.enrollment.completed_lessons.insert lid := hx
    rcases List.mem_insert_iff.mp hx' with h1 | h2
    · exact ⟨l, hl_mem, by rw [hl_id, h1]⟩
    · exact hinv.completedInCourse x h2

/-- The invariant is preserved by a successful `completeLesson`. -/
theorem stateInv_completeLesson {c : Course} {s s1 : EMState} {lid : Nat}
    (hinv : StateInv c s) (h : completeLesson c s lid = .ok s1) : StateInv c s1 := by
  obtain ⟨⟨l, hf⟩, hshape⟩ := completeLesson_ok_shape c s s1 lid h
  subst hshape
  exact stateInv_addCompleted c s lid l hinv hf

/-- The invariant is preserved by `resetLesson`. -/
theorem stateInv_resetLesson {c : Course} {s : EMState} (lid : Nat)
    (hwf : WellFormed c) (hinv : StateInv c s) : StateInv c (resetLesson c s lid) := by
  constructor
  · intro h
    simp [resetLesson, recompute] at h
  · intro m hm hmem lesson hlesson
    show lesson.id ∈ s.enrollment.completed_lessons.filter (fun x => x != lid)
    have hmem' : m.id ∈ (match owningModule c lid with
        | some m0 => s.enrollment.module_completed.filter (fun x => x != m0.id)
        | none => s.enrollment.module_completed) := hmem
    cases howning : owningModule c lid with
    | some m0 =>
        rw [howning] at hmem'
        have hmem2 : m.id ∈ s.enrollment.module_completed.filter (fun x => x != m0.id) := hmem'
        obtain ⟨hmemflag, hne0⟩ := List.mem_filter.mp hmem2
        have hne : m.id ≠ m0.id := by simpa using hne0
        have hold := hinv.lessonsDone m hm hmemflag lesson hlesson
        refine List.mem_filter.mpr ⟨hold, ?_⟩
        have hlesson_ne : lesson.id ≠ lid := by
          intro heq
          have hm0mem : m0 ∈ c.modules := List.mem_of_find?_eq_some howning
          have hlidm0 : lid ∈ m0.lessonIds := by
            simpa using List.find?_some howning
          have hlidm : lid ∈ m.lessonIds := by
            rw [← heq]
            exact List.mem_map.mpr ⟨lesson, hlesson, rfl⟩
          exact hne (congrArg Module.id (wf_modules_disjoint c hwf hm hm0mem hlidm hlidm0))
        simpa using hlesson_ne
    | none =>
        rw [howning] at hmem'
        have hold := hinv.lessonsDone m hm hmem' lesson hlesson
        refine List.mem_filter.mpr ⟨hold, ?_⟩
        have hnone := List.find?_eq_none.mp howning m hm
        have hlesson_ne : lesson.id ≠ lid := by
          intro heq
          apply hnone
          have hlidm : lid ∈ m.lessonIds := by
            rw [← heq]
            exact List.mem_map.mpr ⟨lesson, hlesson, rfl⟩
          simpa using hlidm
        simpa using hlesson_ne
  · rfl
  · intro x hx
    have hx' : x ∈ s.enrollment.completed_lessons.filter (fun y => y != lid) := hx
    exact hinv.completedInCourse x (List.mem_filter.mp hx').1

/-- The invariant is preserved by a successful `completeModule`. -/
theorem stateInv_completeModule {c : Course} {s s2 : EMState} {mid : Nat}
    (hwf : WellFormed c) (hinv : StateInv c s)
    (h : completeModule c s mid = .ok s2) : StateInv c s2 := by
  obtain ⟨m0, hfind, hall, hshape⟩ := completeModule_ok_shape c s s2 mid h
  subst hshape
  have hm0mem : m0 ∈ c.modules := List.mem_of_find?_eq_some hfind
  have hm0id : m0.id = mid := by simpa using List.find?_some hfind
  constructor
  · intro h2 m hm
    show m.id ∈ s.enrollment.module_completed.insert mid
    exact List.mem_insert_iff.mpr (Or.inr (hinv.modulesDone h2 m hm))
  · intro m hm hmem lesson hlesson
    have hmem' : m.id ∈ s.enrollment.module_completed.insert mid := hmem
    show lesson.id ∈ s.enrollment.completed_lessons
    rcases List.mem_insert_iff.mp hmem' with h1 | h2
    · have hmeq : m = m0 := wf_module_id_inj c hwf hm hm0mem (by rw [h1, hm0id])
      have hmm : lesson.id ∈ m0.lessonIds := by
        rw [← hmeq]
        exact List.mem_map.mpr ⟨lesson, hlesson, rfl⟩
      exact hall lesson.id hmm
    · exact hinv.lessonsDone m hm h2 lesson hlesson
  · rfl
  · intro x hx
    exact hinv.completedInCourse x hx

/-- The invariant is preserved by a successful `completeCourse`. -/
theorem stateInv_completeCourse {c : Course} {s s3 : EMState}
    (hinv : StateInv c s) (h : completeCourse c s = .ok s3) : StateInv c s3 := by
  obtain ⟨hall, hshape⟩ := completeCourse_ok_shape c s s3 h
  subst hshape
  constructor
  · intro h2 m hm
    exact hall m hm
  · intro m hm hmem lesson hlesson
    exact hinv.lessonsDone m hm hmem lesson hlesson
  · rfl
  · intro x hx
    exact hinv.completedInCourse x hx

/-- `submitQuizOp` does not touch the enrollment record. -/
theorem submitQuizOp_enrollment {s s1 : EMState} {a : QuizAttempt} {qz : Quiz}
    {ans : List (Nat × Nat)} (h : submitQuizOp s qz ans = .ok (a, s1)) :
    s1.enrollment = s.enrollment := by
  unfold submitQuizOp at h
  split at h
  · cases h
  · have hpair := Except.ok.inj h
    injection hpair with h1 h2
    rw [← h2]

/-- `generateCertificate` does not touch the enrollment record. -/
theorem generateCertificate_enrollment {c : Course} {name : String} {s s1 : EMState}
    {ct : Certificate} {now : Nat} (h : generateCertificate c name s now = .ok (ct, s1)) :
    s1.enrollment = s.enrollment := by
  unfold generateCertificate at h
  split at h
  · split at h
    · have hpair := Except.ok.inj h
      injection hpair with h1 h2
      rw [← h2]
    · have hpair := Except.ok.inj h
      injection hpair with h1 h2
      rw [← h2]
  · cases h

/-- Every reachable state of a well-formed course satisfies the
invariant. -/
theorem reaches_stateInv (c : Course) (s : EMState)
    (hwf : WellFormed c) (hr : Reaches c s) : StateInv c s := by
  induction hr with
  | enroll eid sid => exact stateInv_init c eid sid
  | completeLessonStep hr heq ih => exact stateInv_completeLesson ih heq
  | resetLessonStep hr ih => exact stateInv_resetLesson _ hwf ih
  | completeModuleStep hr heq ih => exact stateInv_completeModule hwf ih heq
  | completeCourseStep hr heq ih => exact stateInv_completeCourse ih heq
  | submitQuizStep hr heq ih => exact stateInv_enrollment_eq ih (submitQuizOp_enrollment heq)
  | generateCertificateStep hr heq ih =>
      exact stateInv_enrollment_eq ih (generateCertificate_enrollment heq)

/-- C1: in every enrollment state reachable through the Enrollment Manager
operations over a well-formed course, `is_completed` implies every module
of the course is in the module-completed set, and a module-completed
module has every one of its lessons in the completed-lesson set. -/
theorem enrollment_completion_invariant (c : Course) (s : EMState) (m : Module) (l : Lesson)
    (hwf : WellFormed c) (hr : Reaches c s) :
    (s.enrollment.is_completed = true → m ∈ c.modules →
      m.id ∈ s.enrollment.module_completed) ∧
    (m ∈ c.modules → m.id ∈ s.enrollment.module_completed → l ∈ m.lessons →
      l.id ∈ s.enrollment.completed_lessons) := by
  have hinv := reaches_stateInv c s hwf hr
  exact ⟨fun h hm => hinv.modulesDone h m hm,
         fun hm hmem hl => hinv.lessonsDone m hm hmem l hl⟩

/-- Witness for C1 at the freshly enrolled state of the example course. -/
theorem enrollment_completion_invariant_witness :
    ((initState 0 0 exCourse).enrollment.is_completed = true →
      exModule ∈ exCourse.modules →
      exModule.id ∈ (initState 0 0 exCourse).enrollment.module_completed) ∧
    (exModule ∈ exCourse.modules →
      exModule.id ∈ (initState 0 0 exCourse).enrollment.module_completed →
      exLessonQ ∈ exModule.lessons →
      exLessonQ.id ∈ (initState 0 0 exCourse).enrollment.completed_lessons) :=
  enrollment_completion_invariant exCourse (initState 0 0 exCourse) exModule exLessonQ
    (by decide) (.enroll 0 0)

/-- In a well-formed course, looking up a lesson of the course by its own
identifier finds exactly that lesson. -/
theorem findLesson_self (c : Course) (l : Lesson) (hwf : WellFormed c)
    (hl : l ∈ allLessons c) : findLesson c l.id = some l := by
  unfold findLesson
  cases hfd : (allLessons c).find? (fun x => x.id == l.id) with
  | none =>
      exfalso
      have hnone := List.find?_eq_none.mp hfd l hl
      simp at hnone
  | some l2 =>
      have hmem2 := List.mem_of_find?_eq_some hfd
      have hid2 : l2.id = l.id := by simpa using List.find?_some hfd
      rw [List.inj_on_of_nodup_map (wf_lesson_ids_nodup c hwf) hmem2 hl hid2]

/-- C2: for a quiz-type lesson of a well-formed course, `completeLesson`
fails with `QuizNotPassed` (so the lesson is not added to the completed
set) whenever the most recent attempt for its quiz is not passing; and the
frontend modal footer disables the complete action exactly when the
current quiz result is not a passing one. -/
theorem completeLesson_quiz_gate (c : Course) (s : EMState) (l : Lesson) (qz : Quiz)
    (r : Option QuizAttempt)
    (hwf : WellFormed c) (hl : l ∈ allLessons c) (hq : l.content = .quizC qz)
    (hnp : latestPassed s qz.id = false) :
    completeLesson c s l.id = .error .QuizNotPassed ∧
    completeDisabled none l r = !(optResultPassed r) := by
  constructor
  · have hfind := findLesson_self c l hwf hl
    unfold completeLesson
    rw [hfind]
    simp [hq, hnp]
  · unfold completeDisabled quizPassedFlag lessonTypeIsQuiz
    rw [hq]
    simp

/-- Witness for C2: a fresh enrollment has no passing attempt, so
completing the quiz lesson fails and the frontend button is disabled. -/
theorem completeLesson_quiz_gate_witness :
    completeLesson exCourse (initState 0 0 exCourse) exLessonQ.id = .error .QuizNotPassed ∧
    completeDisabled none exLessonQ (some failAttempt) =
      !(optResultPassed (some failAttempt)) :=
  completeLesson_quiz_gate exCourse (initState 0 0 exCourse) exLessonQ gateQuiz
    (some failAttempt) (by decide) (by decide) rfl rfl

/-- C3: `resetLesson` removes exactly the given lesson from the completed
set (a no-op when it was absent), clears the module-completed flag of the
module owning the lesson, clears `is_completed`, and leaves every issued
certificate in existence. -/
theorem resetLesson_spec (c : Course) (s : EMState) (lid x : Nat) (m : Module)
    (hwf : WellFormed c) :
    lid ∉ (resetLesson c s lid).enrollment.completed_lessons ∧
    (x ∈ s.enrollment.completed_lessons → x ≠ lid →
      x ∈ (resetLesson c s lid).enrollment.completed_lessons) ∧
    (lid ∉ s.enrollment.completed_lessons →
      (resetLesson c s lid).enrollment.completed_lessons
        = s.enrollment.completed_lessons) ∧
    (m ∈ c.modules → lid ∈ m.lessonIds →
      m.id ∉ (resetLesson c s lid).enrollment.module_completed) ∧
    (resetLesson c s lid).enrollment.is_completed = false ∧
    (resetLesson c s lid).certificates = s.certificates := by
  refine ⟨?_, ?_, ?_, ?_, rfl, rfl⟩
  · intro hmem
    have hmem' : lid ∈ s.enrollment.completed_lessons.filter (fun y => y != lid) := hmem
    have hcontra := (List.mem_filter.mp hmem').2
    simp at hcontra
  · intro hx hne
    show x ∈ s.enrollment.completed_lessons.filter (fun y => y != lid)
    exact List.mem_filter.mpr ⟨hx, by simpa using hne⟩
  · intro habs
    show s.enrollment.completed_lessons.filter (fun y => y != lid)
      = s.enrollment.completed_lessons
    apply List.filter_eq_self.mpr
    intro a ha
    have hnea : a ≠ lid := fun heq => habs (heq ▸ ha)
    simpa using hnea
  · intro hm hlid hmemflag
    have hmem' : m.id ∈ (match owningModule c lid with
        | some m0 => s.enrollment.module_completed.filter (fun y => y != m0.id)
        | none => s.enrollment.module_completed) := hmemflag
    cases howning : owningModule c lid with
    | some m0 =>
        rw [howning] at hmem'
        have hmem2 : m.id ∈ s.enrollment.module_completed.filter (fun y => y != m0.id) :=
          hmem'
        have hne0 := (List.mem_filter.mp hmem2).2
        have hm0mem : m0 ∈ c.modules := List.mem_of_find?_eq_some howning
        have hlid0 : lid ∈ m0.lessonIds := by simpa using List.find?_some howning
        have hmeq : m = m0 := wf_modules_disjoint c hwf hm hm0mem hlid hlid0
        rw [hmeq] at hne0
        simp at hne0
    | none =>
        exact (List.find?_eq_none.mp howning m hm) (by simpa using hlid)

/-- Witness for C3 at the completed example state. -/
theorem resetLesson_spec_witness :
    1 ∉ (resetLesson exCourse exSDone 1).enrollment.completed_lessons ∧
    (2 ∈ exSDone.enrollment.completed_lessons → 2 ≠ 1 →
      2 ∈ (resetLesson exCourse exSDone 1).enrollment.completed_lessons) ∧
    (1 ∉ exSDone.enrollment.completed_lessons →
      (resetLesson exCourse exSDone 1).enrollment.completed_lessons
        = exSDone.enrollment.completed_lessons) ∧
    (exModule ∈ exCourse.modules → 1 ∈ exModule.lessonIds →
      exModule.id ∉ (resetLesson exCourse exSDone 1).enrollment.module_completed) ∧
    (resetLesson exCourse exSDone 1).enrollment.is_completed = false ∧
    (resetLesson exCourse exSDone 1).certificates = exSDone.certificates :=
  resetLesson_spec exCourse exSDone 1 2 exModule (by decide)

/-- C5: `generateCertificate` fails with `CourseNotCompleted` whenever
`is_completed` is false; an enrollment that already has a certificate gets
exactly that record back with the state unchanged; and calling the
operation twice returns the very same certificate (same identity, same
`issued_at`) and the same state. -/
theorem generateCertificate_spec (c : Course) (name : String) (s s1 : EMState)
    (ct ct0 : Certificate) (now now2 : Nat) :
    (s.enrollment.is_completed = false →
      generateCertificate c name s now = .error .CourseNotCompleted) ∧
    (s.enrollment.is_completed = true →
      s.certificates.find? (fun x => x.enrollmentId == s.enrollment.id) = some ct0 →
      generateCertificate c name s now = .ok (ct0, s)) ∧
    (generateCertificate c name s now = .ok (ct, s1) →
      generateCertificate c name s1 now2 = .ok (ct, s1)) := by
  refine ⟨?_, ?_, ?_⟩
  · intro hic
    simp [generateCertificate, hic]
  · intro hic hfind
    simp [generateCertificate, hic, hfind]
  · intro h
    by_cases hic : s.enrollment.is_completed = true
    · unfold generateCertificate at h ⊢
      rw [if_pos hic] at h
      cases hfind : s.certificates.find? (fun x => x.enrollmentId == s.enrollment.id) with
      | some ct2 =>
          rw [hfind] at h
          have h2 : (Except.ok (ct2, s) : Except EMError (Certificate × EMState))
              = .ok (ct, s1) := h
          have hpair := Except.ok.inj h2
          injection hpair with ha hb
          subst hb
          subst ha
          rw [if_pos hic, hfind]
      | none =>
          rw [hfind] at h
          have h2 : (Except.ok (freshCertificate c name s.enrollment now, { s with certificates := freshCertificate c name s.enrollment now :: s.certificates }) : Except EMError (Certificate × EMState)) = .ok (ct, s1) := h
          have hpair := Except.ok.inj h2
          injection hpair with ha hb
          subst hb
          subst ha
          have hic2 : ({ s with certificates := freshCertificate c name s.enrollment now :: s.certificates } : EMState).enrollment.is_completed = true := hic
          rw [if_pos hic2]
          simp [freshCertificate]
    · unfold generateCertificate at h
      rw [if_neg hic] at h
      cases h

/-- Witness for C5: a second issuance for the completed example enrollment
returns the certificate issued first, with its original `issued_at`. -/
theorem generateCertificate_spec_witness :
    generateCertificate exCourse "s" exSDone2 43 = .ok (exCert, exSDone2) :=
  (generateCertificate_spec exCourse "s" exSDone exSDone2 exCert exCert 42 43).2.2 (by rfl)

/-- Adding an already-present lesson to a progress-consistent state is the
identity. -/
theorem addCompleted_mem_eq (c : Course) (s : EMState) (lid : Nat)
    (hmem : lid ∈ s.enrollment.completed_lessons)
    (hprog : s.enrollment.progress_percent = progressOf c s.enrollment.completed_lessons) :
    addCompleted c s lid = s := by
  obtain ⟨⟨eid, sid, cid, comp, modc, isc, prog⟩, att, certs⟩ := s
  simp only [addCompleted, recompute] at *
  rw [List.insert_of_mem hmem]
  rw [hprog]

/-- C7 counterexample: `exS3` is reachable (enroll, pass the quiz, complete
the quiz lesson, then fail a retake), lesson 1 is already in its completed
set, yet `completeLesson` returns the `QuizNotPassed` error rather than an
idempotent success, because the spec checks the quiz gate before the
no-op add. -/
theorem completeLesson_already_completed_counterexample :
    Reaches exCourse exS3 ∧
    1 ∈ exS3.enrollment.completed_lessons ∧
    completeLesson exCourse exS3 1 = .error .QuizNotPassed := by
  refine ⟨?_, by decide, by rfl⟩
  have h0 : Reaches exCourse (initState 0 0 exCourse) := .enroll 0 0
  have e1 : submitQuizOp (initState 0 0 exCourse) gateQuiz [(1, 0)]
      = .ok (passAttempt, exS1) := by rfl
  have h1 : Reaches exCourse exS1 := .submitQuizStep h0 e1
  have e2 : completeLesson exCourse exS1 1 = .ok exS2 := by rfl
  have h2 : Reaches exCourse exS2 := .completeLessonStep h1 e2
  have e3 : submitQuizOp exS2 gateQuiz [(1, 1)] = .ok (failAttempt, exS3) := by rfl
  exact .submitQuizStep h2 e3

/-- C7 as amended: in every reachable state of a well-formed course,
calling `completeLesson` on a lesson already in the completed set returns
success with the state unchanged, provided the lesson's quiz gate holds
(the lesson is not quiz-type, or the most recent attempt for its quiz is
passing); with a failing latest attempt the call instead fails
`QuizNotPassed`. -/
theorem completeLesson_idempotent_gated (c : Course) (s : EMState) (lid : Nat)
    (hwf : WellFormed c) (hr : Reaches c s)
    (hmem : lid ∈ s.enrollment.completed_lessons) (hgate : quizGate c s lid = true) :
    completeLesson c s lid = .ok s := by
  have hinv := reaches_stateInv c s hwf hr
  obtain ⟨l0, hl0mem, hl0id⟩ := hinv.completedInCourse lid hmem
  have hfind : findLesson c lid = some l0 := by
    rw [← hl0id]
    exact findLesson_self c l0 hwf hl0mem
  have haddeq : addCompleted c s lid = s :=
    addCompleted_mem_eq c s lid hmem hinv.progressOk
  unfold completeLesson
  rw [hfind]
  unfold quizGate at hgate
  rw [hfind] at hgate
  cases hc : l0.content with
  | quizC qz =>
      have hgate2 : latestPassed s qz.id = true := by
        have hgate' : (match l0.content with
            | LessonContent.quizC qz2 => latestPassed s qz2.id
            | _ => true) = true := hgate
        rw [hc] at hgate'
        simpa using hgate'
      simp [hc, hgate2, haddeq]
  | video url => simp [hc, haddeq]
  | textC t => simp [hc, haddeq]

/-- Witness for the amended C7: repeating `completeLesson` on the
completed quiz lesson while the latest attempt is passing is a no-op
success. -/
theorem completeLesson_idempotent_gated_witness :
    completeLesson exCourse exS2 1 = .ok exS2 := by
  have h0 : Reaches exCourse (initState 0 0 exCourse) := .enroll 0 0
  have e1 : submitQuizOp (initState 0 0 exCourse) gateQuiz [(1, 0)]
      = .ok (passAttempt, exS1) := by rfl
  have h1 : Reaches exCourse exS1 := .submitQuizStep h0 e1
  have e2 : completeLesson exCourse exS1 1 = .ok exS2 := by rfl
  have h2 : Reaches exCourse exS2 := .completeLessonStep h1 e2
  exact completeLesson_idempotent_gated exCourse exS2 1 (by decide) h2 (by decide) (by rfl)

end PunkSchool
